import Mathlib

/-!
Verification development for the paka package-manager front-end.

Shallow embedding of the two core subsystems named by the specification:

* the plugin dispatch engine (`src/core/plugin_manager.py`:
  `SimplePlugin._expand_variables`, `SimplePlugin.handle_event`,
  `PluginManager._load_plugins`, `PluginManager.get_enabled_plugins`,
  `PluginManager.enable_plugin` / `disable_plugin`,
  `PluginManager.trigger_event`);

* the installation-history ledger with reconciliation and rollback
  (`src/core/history.py`: `HistoryManager.record_install`,
  `mark_packages_removed`, `check_package_status`,
  `reconcile_package_status`, `record_rollback`, `perform_rollback`,
  `get_installations`, `get_installation`).

Modelling conventions:

* Python dicts used as ordered maps become association lists
  (`List (String × _)`), preserving insertion order, the order Python
  iteration observes.
* Nondeterministic inputs (wall-clock timestamps, the acting user name)
  are passed as explicit `String` parameters.
* Subprocess-backed operations (package-manager `search`/`remove`/`purge`,
  plugin action execution) are passed in as oracle functions describing
  the outcome the external world produced on this run.
* File persistence (`_save_history`, `_save_plugin_config`) only mirrors
  the in-memory data and its failures are logged-and-ignored in the
  source, so the embedding works on the authoritative in-memory state.
* All string computation is done on `List Char` (`String.data`), where
  Lean's list functions compute by `rfl`.
-/

namespace Paka

/-! ## String helpers (Python `str` semantics) -/

/-- Python string containment `needle in hay` (`str.__contains__`):
true iff `needle` occurs as a contiguous substring, with the empty
needle contained in everything. -/
def charsContains (needle : List Char) : List Char → Bool
  | [] => needle.isEmpty
  | c :: cs => needle.isPrefixOf (c :: cs) || charsContains needle cs

/-- Python `str.replace` on character lists: replace every
non-overlapping occurrence of `pat` by `rep`, scanning left to right.
`fuel` bounds the recursion; callers pass the text length, which is
sufficient since every step consumes at least one character. The
source only ever calls this with non-empty concrete patterns, so the
empty-pattern case (where Python would intersperse) never arises; the
guard makes the function total by leaving the text unchanged then. -/
def replaceFuel (pat rep : List Char) : Nat → List Char → List Char
  | 0, s => s
  | _ + 1, [] => []
  | fuel + 1, c :: cs =>
    if pat.isPrefixOf (c :: cs) && !pat.isEmpty then
      rep ++ replaceFuel pat rep fuel (List.drop (pat.length - 1) cs)
    else
      c :: replaceFuel pat rep fuel cs

/-- Python `text.replace(pat, rep)`. -/
def pyReplace (text pat rep : String) : String :=
  String.mk (replaceFuel pat.data rep.data text.data.length text.data)

/-- Python `str.lower()` (ASCII-adequate for the package names the
source compares). -/
def pyLower (s : String) : String :=
  String.mk (s.data.map Char.toLower)

/-- Python `str(bool)`: capitalised `True` / `False`. -/
def pyStr (b : Bool) : String := if b then "True" else "False"

/-- Python `' '.join(xs)`. -/
def pyJoin (xs : List String) : String :=
  String.mk ((xs.map String.data).intersperse [' '] |>.flatten)

/-! ## Plugin subsystem data model (`plugin_manager.py`) -/

/-- The event context passed to plugins. `SimplePlugin._expand_variables`
reads exactly these keys with `context.get(key, default)`; `none` models
an absent key. -/
structure EventContext where
  package_manager : Option String
  packages : Option (List String)
  operation : Option String
  success : Option Bool
  error : Option String

/-- Process environment as read by `os.getenv('USER'/'HOME'/'HOSTNAME',
'')`; `none` models an unset variable. -/
structure EnvVars where
  user : Option String
  home : Option String
  hostname : Option String

/-- `SimplePlugin._expand_variables(text, context)`: a fixed chain of
`str.replace` calls in source order. `pluginName`/`pluginDir` are the
plugin's `self.name`/`str(self.plugin_dir)`; `timestamp`/`date`/`time`
are the three `datetime.now().strftime(...)` strings of this call. -/
def expandVariables (ctx : EventContext) (env : EnvVars)
    (pluginName pluginDir timestamp date time : String) (text : String) : String :=
  let t1 := pyReplace text "$package-manager" (ctx.package_manager.getD "")
  let t2 := pyReplace t1 "$packages" (pyJoin (ctx.packages.getD []))
  let t3 := pyReplace t2 "$package-count" (toString (ctx.packages.getD []).length)
  let t4 := pyReplace t3 "$operation" (ctx.operation.getD "")
  let t5 := pyReplace t4 "$success" (pyStr (ctx.success.getD false))
  let t6 := pyReplace t5 "$error" (ctx.error.getD "")
  let t7 := pyReplace t6 "$user" (env.user.getD "")
  let t8 := pyReplace t7 "$home" (env.home.getD "")
  let t9 := pyReplace t8 "$hostname" (env.hostname.getD "")
  let t10 := pyReplace t9 "$plugin-name" pluginName
  let t11 := pyReplace t10 "$plugin-dir" pluginDir
  let t12 := pyReplace t11 "$timestamp" timestamp
  let t13 := pyReplace t12 "$date" date
  let t14 := pyReplace t13 "$time" time
  t14

/-- The 14 builtin variable tokens, in the order `_expand_variables`
replaces them. -/
def builtinTokens : List String :=
  ["$package-manager", "$packages", "$package-count", "$operation", "$success",
   "$error", "$user", "$home", "$hostname", "$plugin-name", "$plugin-dir",
   "$timestamp", "$date", "$time"]

/-- A `SimplePlugin` as loaded by `_load_config`: the `enabled` flag and
the `events` mapping (event name to the ordered list of raw action
strings). The metadata fields (description, version, author) play no
role in the claims under verification. -/
structure SimplePlugin where
  enabled : Bool
  events : List (String × List String)
deriving DecidableEq

/-- `SimplePlugin.is_enabled`: `self.config.get('enabled', True)`; the
config produced by `_load_config` always carries the key. -/
def SimplePlugin.isEnabledB (p : SimplePlugin) : Bool := p.enabled

/-- The `for action in actions` loop of `handle_event`: returns the
source's boolean result together with the list of action strings handed
to `_execute_action`, in execution order (the trace makes the stop-at-
first-failure side-effect order provable; the boolean component is
exactly the source's return value). `exec` is the oracle giving
`_execute_action`'s outcome for each action string. -/
def handleEventLoop (exec : String → Bool) : List String → Bool × List String
  | [] => (true, [])
  | a :: rest =>
    if exec a then
      let r := handleEventLoop exec rest
      (r.1, a :: r.2)
    else
      (false, [a])

/-- `SimplePlugin.handle_event(event, context)`, instrumented with the
executed-action trace as in `handleEventLoop`: a disabled plugin
returns `True` immediately with no action executed; an event absent
from `config['events']` contributes no actions. -/
def handleEvent (p : SimplePlugin) (exec : String → Bool) (event : String) :
    Bool × List String :=
  if !p.isEnabledB then
    (true, [])
  else
    match p.events.lookup event with
    | none => (true, [])
    | some actions => handleEventLoop exec actions

/-- `PluginManager` state: the `self.plugins` dict as an ordered
association list from plugin key to plugin. -/
structure PluginManager where
  plugins : List (String × SimplePlugin)
deriving DecidableEq

/-- `PluginManager._load_plugins_from_dir(plugin_dir, prefix)`: every
subdirectory holding a `plugin.conf` is loaded under the key
`f"{prefix}-{item.name}"` (both call sites pass a non-empty prefix).
`dirs` lists the plugin subdirectory names with their parsed configs in
directory-iteration order; insertion into the dict appends (directory
entries are unique, so no key is hit twice within one directory). -/
def loadPluginsFromDir (pm : PluginManager) (dirs : List (String × SimplePlugin))
    (pfx : String) : PluginManager :=
  ⟨pm.plugins ++ dirs.map (fun d => (pfx ++ "-" ++ d.1, d.2))⟩

/-- `PluginManager._load_plugins()`: system directory first (prefix
`system`), user directory second (prefix `user`). -/
def loadPlugins (systemDirs userDirs : List (String × SimplePlugin)) : PluginManager :=
  loadPluginsFromDir (loadPluginsFromDir ⟨[]⟩ systemDirs "system") userDirs "user"

/-- `PluginManager.get_plugin(name)`: `self.plugins.get(name)`. -/
def getPlugin (pm : PluginManager) (name : String) : Option SimplePlugin :=
  pm.plugins.lookup name

/-- `PluginManager.get_enabled_plugins()`: the enabled sub-dict, in
insertion order. -/
def getEnabledPlugins (pm : PluginManager) : List (String × SimplePlugin) :=
  pm.plugins.filter (fun np => np.2.isEnabledB)

/-- Set the `enabled` flag of the plugin stored under exactly `name`,
leaving every other entry untouched (`plugin.config['enabled'] = value`
inside `enable_plugin` / `disable_plugin`). -/
def setPluginEnabled (pm : PluginManager) (name : String) (value : Bool) : PluginManager :=
  ⟨pm.plugins.map (fun np => if np.1 == name then (np.1, { np.2 with enabled := value }) else np)⟩

/-- `PluginManager.enable_plugin(name)` for `name ≠ 'all'`: look the key
up in `self.plugins`; on a hit flip its flag and report `True`, on a
miss change nothing and report `False`. (The config-file writes
`_save_plugin_config` / `_add_plugin_to_config` mirror the in-memory
flag.) -/
def enablePlugin (pm : PluginManager) (name : String) : PluginManager × Bool :=
  match getPlugin pm name with
  | some _ => (setPluginEnabled pm name true, true)
  | none => (pm, false)

/-- `PluginManager.disable_plugin(name)`. -/
def disablePlugin (pm : PluginManager) (name : String) : PluginManager × Bool :=
  match getPlugin pm name with
  | some _ => (setPluginEnabled pm name false, true)
  | none => (pm, false)

/-- The `for plugin in self.get_enabled_plugins().values()` loop of
`trigger_event`, instrumented like `handleEvent`: the boolean is the
source's return value (`success`, ANDed over every handler with no
break), and the trace pairs each plugin's key with the action strings
its handler executed. `exec` gives `_execute_action`'s outcome per
plugin key and action. -/
def triggerEventLoop (exec : String → String → Bool) (event : String) :
    List (String × SimplePlugin) → Bool × List (String × List String)
  | [] => (true, [])
  | (n, p) :: rest =>
    let h := handleEvent p (exec n) event
    let r := triggerEventLoop exec event rest
    (h.1 && r.1, (n, h.2) :: r.2)

/-- `PluginManager.trigger_event(event, context)` proper: the loop over
`get_enabled_plugins().values()`. -/
def triggerEvent (pm : PluginManager) (exec : String → String → Bool) (event : String) :
    Bool × List (String × List String) :=
  triggerEventLoop exec event (getEnabledPlugins pm)

/-! ## History subsystem data model (`history.py`) -/

/-- One entry of `history_data['installations']`. The three `removed*`
fields are absent until the first marking; the source always reads them
through `.get(key, default)`, so absence is modelled by the default
(`removed = false`, `removed_timestamp = none`,
`removed_packages = []`). -/
structure InstallationRecord where
  timestamp : String
  manager : String
  packages : List String
  dependencies : List String
  version : String
  size : Option Int
  user : String
  scope : String
  removed : Bool
  removed_timestamp : Option String
  removed_packages : List String
deriving DecidableEq

/-- One entry of `history_data['rollbacks']`. In the source the
`original_installation` key stores the dict object
`history_data['installations'][installation_id]` itself — not a copy —
so every later read of the rollback record (JSON serialisation in
`_save_history`, `get_rollbacks`) observes subsequent in-place
mutations of that installation dict. The embedding keeps the reference
as the index `original_ref` and dereferences at read time
(`rollbackOriginal`); indices are stable because the operations under
verification only ever append to `installations`. -/
structure RollbackRecord where
  timestamp : String
  installation_id : Nat
  reason : String
  original_ref : Nat
  scope : String
deriving DecidableEq

/-- One scope's `history_data` document (metadata flattened in). -/
structure Ledger where
  installations : List InstallationRecord
  rollbacks : List RollbackRecord
  created : String
  last_updated : String
  total_installations : Nat
  total_rollbacks : Nat
deriving DecidableEq

/-- The `HistoryManager`'s in-memory state: both scope ledgers plus the
externally-asserted privilege flag
(`PrivilegeManager.can_access_system_history()`), which is fixed for
the session from the caller's point of view. -/
structure HistoryState where
  userLedger : Ledger
  systemLedger : Ledger
  privileged : Bool
deriving DecidableEq

/-- The scope dispatch the source repeats everywhere:
`self.system_history_data if scope == 'system' else self.user_history_data`. -/
def scopeLedger (st : HistoryState) (scope : String) : Ledger :=
  if scope == "system" then st.systemLedger else st.userLedger

/-- Write back the ledger selected by `scopeLedger`. -/
def setScopeLedger (st : HistoryState) (scope : String) (l : Ledger) : HistoryState :=
  if scope == "system" then { st with systemLedger := l } else { st with userLedger := l }

/-- The `details` dict argument of `record_install`, read with
`.get('dependencies', [])`, `.get('version', 'unknown')`,
`.get('size')`. -/
structure InstallDetails where
  dependencies : Option (List String)
  version : Option String
  size : Option Int
deriving DecidableEq

/-- `HistoryManager.record_install(manager, packages, details, scope)`.
`now` is `datetime.now().isoformat()`, `user` is `getpass.getuser()`.
Note that no privilege check occurs on this path: the record is
appended to the scope's ledger unconditionally. -/
def recordInstall (st : HistoryState) (now user manager : String)
    (packages : List String) (details : InstallDetails) (scope : String) : HistoryState :=
  let record : InstallationRecord :=
    { timestamp := now, manager := manager, packages := packages
      dependencies := details.dependencies.getD []
      version := details.version.getD "unknown"
      size := details.size, user := user, scope := scope
      removed := false, removed_timestamp := none, removed_packages := [] }
  let l := scopeLedger st scope
  setScopeLedger st scope
    { l with installations := l.installations ++ [record]
             total_installations := l.total_installations + 1
             last_updated := now }

/-- The body of `mark_packages_removed`'s inner `for package in
packages` loop on one stored installation dict: a package found in
`installation['packages']` sets `removed = True`, refreshes
`removed_timestamp`, and appends itself to `removed_packages`. -/
def markRecordStep (now : String) (r : InstallationRecord) (p : String) : InstallationRecord :=
  if r.packages.contains p then
    { r with removed := true, removed_timestamp := some now
             removed_packages := r.removed_packages ++ [p] }
  else r

/-- The body of `mark_packages_removed`'s outer loop for one stored
installation dict: records of other managers are untouched, matching
records run the package loop. -/
def markRecord (now manager : String) (packages : List String)
    (rec : InstallationRecord) : InstallationRecord :=
  if rec.manager == manager then
    packages.foldl (markRecordStep now) rec
  else rec

/-- `HistoryManager.mark_packages_removed(manager, packages, scope)`:
mutates matching records in place and saves; no record is ever removed
from the list, and no privilege check occurs. -/
def markPackagesRemoved (st : HistoryState) (now manager : String)
    (packages : List String) (scope : String) : HistoryState :=
  let l := scopeLedger st scope
  setScopeLedger st scope
    { l with installations := l.installations.map (markRecord now manager packages) }

/-- Outcome of `manager_instance.search(package_name, {})`: either a
result object (success flag plus the `name` fields of the returned
package dicts, a missing name behaving as `''`), or a raised
exception's message. -/
inductive SearchOutcome where
  | ok (success : Bool) (packages : List String)
  | exn (msg : String)
deriving DecidableEq

/-- Outcome of `manager_instance.remove/purge(packages, {})`: a result
object (success flag, optional error string) or a raised exception's
message. -/
inductive BackendOutcome where
  | ok (success : Bool) (error : Option String)
  | exn (msg : String)
deriving DecidableEq

/-- A backend adapter as the history code consumes it. -/
structure ManagerBackend where
  searchFn : String → SearchOutcome
  removeFn : List String → BackendOutcome
  purgeFn : List String → BackendOutcome
  enabled : Bool

/-- `PackageManagerRegistry.get_manager(name)`: `none` models an
unavailable / unresolvable manager. -/
abbrev Registry := String → Option ManagerBackend

/-- The dict returned by `check_package_status`; `none` fields model
keys absent from the particular branch's dict literal. -/
structure PackageStatus where
  found_in_history : Bool
  still_installed : Bool
  marked_removed : Option Bool
  error : Option String
  manager_enabled : Option Bool
deriving DecidableEq

/-- The history scan inside `check_package_status`: first stored record
of this manager containing the package (the source `break`s at the
first hit). -/
def findHistoryEntry (installs : List InstallationRecord)
    (package manager : String) : Option InstallationRecord :=
  installs.find? (fun rec => rec.manager == manager && rec.packages.contains package)

/-- `still_installed = (search_result.success and search_result.packages
and any(package_name.lower() in p.get('name','').lower() ...))`,
collapsed to its boolean value (Python returns the last falsy operand,
which is always falsy exactly when this is `false`). -/
def stillInstalledB (package : String) (success : Bool) (names : List String) : Bool :=
  success && !names.isEmpty &&
    names.any (fun n => charsContains (pyLower package).data (pyLower n).data)

/-- `HistoryManager.check_package_status(package_name, manager, scope)`.
Backend exceptions raised by `search` are caught inside this function
(returning `still_installed = False` plus an `error` key), so the
function is total; only unexpected internal faults could escape it in
the source. -/
def checkPackageStatus (registry : Registry) (st : HistoryState)
    (package manager scope : String) : PackageStatus :=
  match registry manager with
  | none =>
    { found_in_history := true, still_installed := false, marked_removed := none
      error := some ("Package manager " ++ manager ++ " not found"), manager_enabled := none }
  | some be =>
    match findHistoryEntry (scopeLedger st scope).installations package manager with
    | none =>
      { found_in_history := false, still_installed := false, marked_removed := none
        error := some "Package not found in history", manager_enabled := none }
    | some entry =>
      match be.searchFn package with
      | .ok success names =>
        { found_in_history := true, still_installed := stillInstalledB package success names
          marked_removed := some entry.removed, error := none
          manager_enabled := some be.enabled }
      | .exn msg =>
        { found_in_history := true, still_installed := false
          marked_removed := some entry.removed
          error := some ("Error checking package status: " ++ msg)
          manager_enabled := some be.enabled }

/-- One entry of `reconciliation_results['details']`; `none` fields are
keys absent from that branch's dict literal. -/
structure ReconcileDetail where
  package : String
  manager : String
  action : String
  reason : Option String
  error : Option String
deriving DecidableEq

/-- The `reconciliation_results` accumulator of
`reconcile_package_status`. -/
structure ReconcileResults where
  checked : Nat
  marked_removed : Nat
  errors : Nat
  details : List ReconcileDetail
deriving DecidableEq

/-- `reconciliation_results` as initialised at the top of
`reconcile_package_status`. -/
def emptyReconcileResults : ReconcileResults := ⟨0, 0, 0, []⟩

/-- The body of `reconcile_package_status`'s inner `for package in
packages` loop: bump `checked`, query the status, and when the package
is in history but not still installed, mark it removed and record a
`marked_removed` detail. The source's `except` arm (an `error` detail
without ledger mutation) catches only exceptions raised by
`check_package_status` itself; since that function traps backend
exceptions internally, the arm is unreachable for query errors and the
embedding never takes it. -/
def reconcilePackageStep (registry : Registry) (now scope manager : String)
    (acc : HistoryState × ReconcileResults) (package : String) :
    HistoryState × ReconcileResults :=
  let st := acc.1
  let res := { acc.2 with checked := acc.2.checked + 1 }
  let status := checkPackageStatus registry st package manager scope
  if status.found_in_history && !status.still_installed then
    (markPackagesRemoved st now manager [package] scope,
     { res with marked_removed := res.marked_removed + 1
                details := res.details ++
                  [⟨package, manager, "marked_removed",
                    some "Package no longer found in package manager", none⟩] })
  else
    (st, res)

/-- The body of the outer `for installation in installations` loop, for
the record at index `i` of the (length-stable) installations list: the
`removed` flag is re-read from the current state at visit time (earlier
iterations may have marked this record through a shared package name),
and a removed record is skipped whole. `manager` and `packages` are
read once at visit time, as in the source; neither field is ever
mutated. -/
def reconcileRecordStep (registry : Registry) (now scope : String)
    (acc : HistoryState × ReconcileResults) (i : Nat) :
    HistoryState × ReconcileResults :=
  match (scopeLedger acc.1 scope).installations.get? i with
  | none => acc
  | some rec =>
    if rec.removed then acc
    else rec.packages.foldl (reconcilePackageStep registry now scope rec.manager) acc

/-- `HistoryManager.reconcile_package_status(scope)`. Iteration is over
the list as it stood on entry; `mark_packages_removed` only rewrites
dicts in place, so the index range stays valid throughout. -/
def reconcilePackageStatus (registry : Registry) (st : HistoryState)
    (now scope : String) : HistoryState × ReconcileResults :=
  (List.range (scopeLedger st scope).installations.length).foldl
    (reconcileRecordStep registry now scope) (st, emptyReconcileResults)

/-- `HistoryManager.record_rollback(installation_id, reason, scope)`:
append the rollback record (holding the installation dict by
reference, see `RollbackRecord`), bump the rollback total, save. -/
def recordRollback (st : HistoryState) (now : String) (installation_id : Nat)
    (reason scope : String) : HistoryState :=
  let l := scopeLedger st scope
  let rb : RollbackRecord :=
    { timestamp := now, installation_id := installation_id, reason := reason
      original_ref := installation_id, scope := scope }
  setScopeLedger st scope
    { l with rollbacks := l.rollbacks ++ [rb]
             total_rollbacks := l.total_rollbacks + 1
             last_updated := now }

/-- What a reader of the rollback record (JSON dump, `get_rollbacks`)
sees under its `original_installation` key in state `st`: the current
content of the referenced installation dict. -/
def rollbackOriginal (st : HistoryState) (rb : RollbackRecord) : Option InstallationRecord :=
  (scopeLedger st rb.scope).installations.get? rb.original_ref

/-- `HistoryManager.get_installations(limit, manager, scope)`: the one
read path the claims touch; system scope without privilege yields `[]`
(`can_access_system_history` gate). Python's `if limit:` treats `0` as
falsy, and `installations[-limit:]` keeps the last `limit` entries. -/
def getInstallations (st : HistoryState) (limit : Option Nat)
    (manager : Option String) (scope : String) : List InstallationRecord :=
  if scope == "system" && !st.privileged then []
  else
    let installs := (scopeLedger st scope).installations
    let installs :=
      match manager with
      | some m => installs.filter (fun r => r.manager == m)
      | none => installs
    match limit with
    | some n => if n ≠ 0 then installs.drop (installs.length - n) else installs
    | none => installs

/-- `HistoryManager.get_installation(installation_id, scope)`: privilege
gate for system scope, then the `0 <= installation_id < len` bounds
check (negative CLI indices already fail that check, so `Nat` indices
cover every reachable behaviour). -/
def getInstallation (st : HistoryState) (installation_id : Nat)
    (scope : String) : Option InstallationRecord :=
  if scope == "system" && !st.privileged then none
  else (scopeLedger st scope).installations.get? installation_id

/-- The dict returned by `perform_rollback`; `none` fields are keys
absent from the particular branch's dict literal. -/
structure RollbackResult where
  success : Bool
  error : Option String
  packages_removed : Option (List String)
  packages_attempted : Option (List String)
  manager : Option String
  purge : Option Bool
  message : Option String
deriving DecidableEq

/-- Python `result.error or 'Unknown error during removal'`: `None` and
the empty string are falsy. -/
def pyOrError (e : Option String) (d : String) : String :=
  match e with
  | some s => if s == "" then d else s
  | none => d

/-- The order-preserving de-duplication inside `perform_rollback`
(`seen` set plus `unique_packages` list; `acc` holds exactly the seen
elements in first-occurrence order). -/
def dedupPreserve (xs : List String) : List String :=
  xs.foldl (fun acc p => if acc.contains p then acc else acc ++ [p]) []

/-- `HistoryManager.perform_rollback(installation_id, scope, purge)`.
The `try` block's `except` catches exceptions from the backend call
(`remove`/`purge`), modelled by `BackendOutcome.exn`; `record_rollback`
and `mark_packages_removed` do not raise. -/
def performRollback (registry : Registry) (st : HistoryState) (now : String)
    (installation_id : Nat) (scope : String) (purge : Bool) :
    HistoryState × RollbackResult :=
  match getInstallation st installation_id scope with
  | none =>
    (st, { success := false
           error := some ("Installation " ++ toString installation_id ++ " not found")
           packages_removed := none, packages_attempted := none
           manager := none, purge := none, message := none })
  | some installation =>
    match registry installation.manager with
    | none =>
      (st, { success := false
             error := some ("Package manager " ++ installation.manager ++ " not available")
             packages_removed := none, packages_attempted := none
             manager := none, purge := none, message := none })
    | some be =>
      let uniquePackages := dedupPreserve (installation.packages ++ installation.dependencies)
      match (if purge then be.purgeFn uniquePackages else be.removeFn uniquePackages) with
      | .ok true _ =>
        let reason :=
          "Manual rollback - " ++ (if purge then "purged" else "removed") ++ " packages"
        let st1 := recordRollback st now installation_id reason scope
        let st2 := markPackagesRemoved st1 now installation.manager uniquePackages scope
        (st2, { success := true, error := none
                packages_removed := some uniquePackages, packages_attempted := none
                manager := some installation.manager, purge := some purge
                message := some ("Successfully " ++
                  (if purge then "purged" else "removed") ++ " " ++
                  toString uniquePackages.length ++ " packages") })
      | .ok false e =>
        (st, { success := false
               error := some (pyOrError e "Unknown error during removal")
               packages_removed := none, packages_attempted := some uniquePackages
               manager := none, purge := none, message := none })
      | .exn msg =>
        (st, { success := false, error := some msg
               packages_removed := none, packages_attempted := some uniquePackages
               manager := none, purge := none, message := none })

/-! ## Call sequences over the ledger -/

/-- The default `history_data` structure `_load_history` returns when no
file exists: empty lists, zeroed totals. -/
def initLedger (now : String) : Ledger :=
  { installations := [], rollbacks := [], created := now, last_updated := now
    total_installations := 0, total_rollbacks := 0 }

/-- A fresh `HistoryManager` over empty ledgers. -/
def initState (now : String) (priv : Bool) : HistoryState :=
  { userLedger := initLedger now, systemLedger := initLedger now, privileged := priv }

/-- One call of the ledger-mutating history API, for reasoning about
arbitrary call sequences; a `reconcile` carries the registry (backend
world) in effect during that run. -/
inductive HistoryOp where
  | install (now user manager : String) (packages : List String)
      (details : InstallDetails) (scope : String)
  | mark (now manager : String) (packages : List String) (scope : String)
  | reconcile (registry : Registry) (now scope : String)

/-- Apply one call to the manager state. -/
def applyOp (st : HistoryState) : HistoryOp → HistoryState
  | .install now user manager packages details scope =>
      recordInstall st now user manager packages details scope
  | .mark now manager packages scope =>
      markPackagesRemoved st now manager packages scope
  | .reconcile registry now scope =>
      (reconcilePackageStatus registry st now scope).1

/-- Is this call a `record_install` landing in the system ledger?
(`record_install` routes every scope other than `'system'` to the user
ledger.) -/
def isSystemInstall : HistoryOp → Bool
  | .install _ _ _ _ _ scope => scope == "system"
  | _ => false

/-- Is this call a `record_install` landing in the user ledger? -/
def isUserInstall : HistoryOp → Bool
  | .install _ _ _ _ _ scope => scope != "system"
  | _ => false

/-- `BackendOutcome` failure: `result.success` false, or an exception. -/
def BackendOutcome.isFailureB : BackendOutcome → Bool
  | .ok s _ => !s
  | .exn _ => true

/-! ## Concrete fixtures

Closed instances used by the evaluation/counterexample theorems and the
witnesses. -/

/-- An installation record as `record_install` would create it. -/
def mkRecord (manager : String) (packages deps : List String) : InstallationRecord :=
  { timestamp := "t0", manager := manager, packages := packages, dependencies := deps
    version := "unknown", size := none, user := "alice", scope := "user"
    removed := false, removed_timestamp := none, removed_packages := [] }

/-- A ledger holding the given installation records and nothing else. -/
def mkLedger (installs : List InstallationRecord) : Ledger :=
  { installations := installs, rollbacks := [], created := "t0", last_updated := "t0"
    total_installations := installs.length, total_rollbacks := 0 }

/-- A backend whose `remove`/`purge` always fail with
`permission denied` (scenario 4 of the specification). -/
def fxBackendFail : ManagerBackend :=
  { searchFn := fun _ => .ok true []
    removeFn := fun _ => .ok false (some "permission denied")
    purgeFn := fun _ => .ok false (some "permission denied")
    enabled := true }

/-- A backend whose calls all succeed and whose `search` finds
nothing installed. -/
def fxBackendOk : ManagerBackend :=
  { searchFn := fun _ => .ok true []
    removeFn := fun _ => .ok true none
    purgeFn := fun _ => .ok true none
    enabled := true }

/-- A backend whose `search` raises (models a network failure inside
the adapter). -/
def fxBackendErr : ManagerBackend :=
  { searchFn := fun _ => .exn "network failure"
    removeFn := fun _ => .ok true none
    purgeFn := fun _ => .ok true none
    enabled := true }

/-- Registry resolving exactly the manager `apt` to `fxBackendFail`. -/
def fxRegFail : Registry := fun m => if m == "apt" then some fxBackendFail else none

/-- Registry resolving exactly the manager `m` to `fxBackendOk`. -/
def fxRegOk : Registry := fun m => if m == "m" then some fxBackendOk else none

/-- Registry resolving exactly the manager `mgr` to `fxBackendErr`. -/
def fxRegErr : Registry := fun m => if m == "mgr" then some fxBackendErr else none

/-- State for the rollback-failure scenario: one user-scope record
`{apt, [vim], deps [vim-common]}`. -/
def fxStateVim : HistoryState :=
  { userLedger := mkLedger [mkRecord "apt" ["vim"] ["vim-common"]]
    systemLedger := mkLedger [], privileged := true }

/-- State for the rollback-success scenario: one user-scope record
`{m, [p]}`. -/
def fxStateP : HistoryState :=
  { userLedger := mkLedger [mkRecord "m" ["p"] []]
    systemLedger := mkLedger [], privileged := true }

/-- State for the errored-query reconciliation scenario: one user-scope
record `{mgr, [pkg]}`, not marked removed. -/
def fxStatePkg : HistoryState :=
  { userLedger := mkLedger [mkRecord "mgr" ["pkg"] []]
    systemLedger := mkLedger [], privileged := true }

/-- Partially-removed record `{m, [a, b]}` with `a` already removed. -/
def fxRecPartial : InstallationRecord :=
  { mkRecord "m" ["a", "b"] [] with
    removed := true, removed_timestamp := some "t0", removed_packages := ["a"] }

/-- State for the indirect-marking scenario: the partially-removed
record followed by a live record `{m, [b]}` sharing package `b`. -/
def fxStateShared : HistoryState :=
  { userLedger := mkLedger [fxRecPartial, mkRecord "m" ["b"] []]
    systemLedger := mkLedger [], privileged := true }

/-- A state whose only record is already marked removed. -/
def fxStateAllRemoved : HistoryState :=
  { userLedger := mkLedger [fxRecPartial], systemLedger := mkLedger [], privileged := true }

/-- An unprivileged manager over empty ledgers. -/
def fxStateUnpriv : HistoryState :=
  { userLedger := mkLedger [], systemLedger := mkLedger [], privileged := false }

/-- Plugin manager loaded from a system directory holding plugin dir
`backup` (disabled in its config) and a user directory holding plugin
dir `backup` (enabled) — scenario 5 of the specification. -/
def fxPmScenario : PluginManager :=
  loadPlugins [("backup", ⟨false, []⟩)] [("backup", ⟨true, []⟩)]

/-- Same two directories with both `backup` plugins enabled. -/
def fxPmBoth : PluginManager :=
  loadPlugins [("backup", ⟨true, []⟩)] [("backup", ⟨true, []⟩)]

/-- An enabled plugin binding event `e` to actions `a`, `b`, `c`. -/
def fxPluginAbc : SimplePlugin := ⟨true, [("e", ["a", "b", "c"])]⟩

/-- Action oracle that succeeds exactly on action `a`. -/
def fxExecOnlyA : String → Bool := fun s => s == "a"

/-- An empty event context (every `context.get` hits its default). -/
def fxCtxEmpty : EventContext := ⟨none, none, none, none, none⟩

/-- An empty process environment. -/
def fxEnvEmpty : EnvVars := ⟨none, none, none⟩

/-! ## Theorems -/

/-- A pattern that occurs nowhere in the text is not replaced,
whatever the replacement and fuel. -/
theorem replaceFuel_of_not_contains (pat rep : List Char) :
    ∀ (fuel : Nat) (cs : List Char), charsContains pat cs = false →
      replaceFuel pat rep fuel cs = cs
  | 0, _, _ => rfl
  | _ + 1, [], _ => rfl
  | fuel + 1, c :: cs, h => by
    have h' : (pat.isPrefixOf (c :: cs) || charsContains pat cs) = false := h
    have h1 : pat.isPrefixOf (c :: cs) = false := by
      cases hp : pat.isPrefixOf (c :: cs) <;> simp [hp] at h' ⊢
    have h2 : charsContains pat cs = false := by
      cases hc : charsContains pat cs <;> simp [hc] at h' ⊢
    simp [replaceFuel, h1, replaceFuel_of_not_contains pat rep fuel cs h2]

/-- `pyReplace` leaves a text alone when the pattern does not occur
in it. -/
theorem pyReplace_of_not_contains (text pat rep : String)
    (h : charsContains pat.data text.data = false) : pyReplace text pat rep = text := by
  obtain ⟨cs⟩ := text
  simp [pyReplace, replaceFuel_of_not_contains pat.data rep.data _ _ h]

/-- C3: with a `backup` plugin in both the system and the user
directory, loading stores them under the distinct keys
`system-backup` and `user-backup`, so no shadowing by directory name
ever happens: in the specification's scenario (system copy disabled,
user copy enabled) the single enabled entry is named `user-backup`,
not `backup`; no plugin at all is stored under the shared name
`backup`, so enabling or disabling `backup` hits nothing and reports
failure; and with both copies enabled, both are active at once. -/
theorem c3_user_system_plugins_never_collide :
    (getEnabledPlugins fxPmScenario).map Prod.fst = ["user-backup"]
    ∧ getPlugin fxPmScenario "backup" = none
    ∧ enablePlugin fxPmScenario "backup" = (fxPmScenario, false)
    ∧ disablePlugin fxPmScenario "backup" = (fxPmScenario, false)
    ∧ (getEnabledPlugins fxPmBoth).map Prod.fst = ["system-backup", "user-backup"] := by
  decide

/-- C1: evaluation at the failing input. One live record `{mgr, [pkg]}`;
the backend's `search` raises (`fxBackendErr`), so the live-status query
errors — yet reconciliation marks the package removed: the record's
`removed` flag becomes true, `marked_removed` counts 1, no error detail
is produced, and the single detail entry claims the package is no
longer found, even though `check_package_status` reported the query
error. With an unresolvable manager (empty registry) the same marking
happens. -/
theorem c1_reconcile_marks_removed_on_errored_query :
    (((reconcilePackageStatus fxRegErr fxStatePkg "t1" "user").1.userLedger.installations.map
        InstallationRecord.removed) = [true])
    ∧ (reconcilePackageStatus fxRegErr fxStatePkg "t1" "user").2.marked_removed = 1
    ∧ (reconcilePackageStatus fxRegErr fxStatePkg "t1" "user").2.errors = 0
    ∧ (reconcilePackageStatus fxRegErr fxStatePkg "t1" "user").2.details =
        [⟨"pkg", "mgr", "marked_removed",
          some "Package no longer found in package manager", none⟩]
    ∧ (checkPackageStatus fxRegErr fxStatePkg "pkg" "mgr" "user").error =
        some "Error checking package status: network failure"
    ∧ ((reconcilePackageStatus (fun _ => none) fxStatePkg "t1" "user").1.userLedger.installations.map
        InstallationRecord.removed) = [true] := by
  decide

/-- C8: evaluation at the failing input. A successful rollback of the
single record `{m, [p]}` appends one rollback record; but because the
source stores the installation dict by reference and then marks it
removed, the `original_installation` a reader of the final ledger sees
carries `removed = true` and `removed_packages = [p]` — not a snapshot
of the pre-rollback record. -/
theorem c8_rollback_snapshot_sees_marking :
    (performRollback fxRegOk fxStateP "t1" 0 "user" false).2.success = true
    ∧ ((performRollback fxRegOk fxStateP "t1" 0 "user" false).1.userLedger.rollbacks.map
        RollbackRecord.original_ref) = [0]
    ∧ (((performRollback fxRegOk fxStateP "t1" 0 "user" false).1.userLedger.rollbacks.head?).bind
        (rollbackOriginal (performRollback fxRegOk fxStateP "t1" 0 "user" false).1)).map
        InstallationRecord.removed = some true
    ∧ (((performRollback fxRegOk fxStateP "t1" 0 "user" false).1.userLedger.rollbacks.head?).bind
        (rollbackOriginal (performRollback fxRegOk fxStateP "t1" 0 "user" false).1)).map
        InstallationRecord.removed_packages = some ["p"] := by
  decide

/-- C10: counterexample. Ledger: record 0 = `{m, [a, b]}` partially
removed (`removed = true`, `removed_packages = [a]`, so `b` is still
installed), record 1 = `{m, [b]}` live; the backend finds nothing
installed. Reconciliation skips record 0 (only record 1's single
package is checked), but marking `b` from record 1 rewrites every
record of manager `m` containing `b` — record 0 included — so record
0's remaining package `b` ends up in its `removed_packages`,
contradicting the claim that reconciliation can never mark the
remaining packages of a partially-removed record. -/
theorem c10_counterexample_indirect_marking :
    (reconcilePackageStatus fxRegOk fxStateShared "t1" "user").2.checked = 1
    ∧ ((reconcilePackageStatus fxRegOk fxStateShared "t1" "user").1.userLedger.installations.map
        InstallationRecord.removed_packages) = [["a", "b"], ["b"]] := by
  decide

/-- C7: counterexample. With the privilege flag false, a system-scope
`record_install` is not refused: it appends its record to the in-memory
system ledger and bumps the total; a subsequent system-scope
`mark_packages_removed` also goes through and marks the record. No
authorization error exists on either path (the methods return nothing),
while the claim requires both calls to be refused before any attempt. -/
theorem c7_counterexample_unprivileged_system_write :
    (recordInstall fxStateUnpriv "t1" "alice" "apt" ["htop"] ⟨none, none, none⟩
        "system").systemLedger.installations.length = 1
    ∧ (recordInstall fxStateUnpriv "t1" "alice" "apt" ["htop"] ⟨none, none, none⟩
        "system").systemLedger.total_installations = 1
    ∧ ((markPackagesRemoved
          (recordInstall fxStateUnpriv "t1" "alice" "apt" ["htop"] ⟨none, none, none⟩ "system")
          "t2" "apt" ["htop"] "system").systemLedger.installations.map
        InstallationRecord.removed) = [true] := by
  decide

/-- C6: counterexample. Expanding the action text `$unknown` — a
variable token that is not builtin — leaves it verbatim in the output
instead of resolving it to the empty string as the claim requires. -/
theorem c6_counterexample_unknown_not_emptied :
    expandVariables fxCtxEmpty fxEnvEmpty "temp" "/tmp" "ts" "d" "tm" "$unknown" = "$unknown"
    ∧ "$unknown" ≠ "" := by
  decide

/-- C6 (amended): variable substitution is a total function, so it
never raises; it rewrites exactly the occurrences of the 14 builtin
tokens, so a variable token that is not builtin is not resolved to the
empty string: for every context, environment and plugin metadata, any
text in which no builtin token occurs as a substring (such as
`$unknown`) is left verbatim, while a non-builtin token that contains
a builtin token as a substring has just that substring rewritten
(`$users` with an unset `USER` becomes `s`); and every builtin
variable is always defined, defaulting to the empty string
(`packages`, `package-manager`, `operation`, `error`, `user`, `home`,
`hostname`), to `0` (`package-count`), or to `False` (`success`) when
context and environment lack it, while `plugin-name`, `plugin-dir`,
`timestamp`, `date`, `time` always substitute their per-call values. -/
theorem c6_amended_only_builtin_tokens_rewritten :
    (∀ (ctx : EventContext) (env : EnvVars) (pn pd ts d t text : String),
      (∀ pat ∈ builtinTokens, charsContains pat.data text.data = false) →
      expandVariables ctx env pn pd ts d t text = text)
    ∧ expandVariables fxCtxEmpty fxEnvEmpty "temp" "/tmp" "ts" "d" "tm" "$users" = "s"
    ∧ expandVariables fxCtxEmpty fxEnvEmpty "temp" "/tmp" "ts" "d" "tm" "$packages" = ""
    ∧ expandVariables fxCtxEmpty fxEnvEmpty "temp" "/tmp" "ts" "d" "tm" "$package-count" = "0"
    ∧ expandVariables fxCtxEmpty fxEnvEmpty "temp" "/tmp" "ts" "d" "tm" "$package-manager" = ""
    ∧ expandVariables fxCtxEmpty fxEnvEmpty "temp" "/tmp" "ts" "d" "tm" "$operation" = ""
    ∧ expandVariables fxCtxEmpty fxEnvEmpty "temp" "/tmp" "ts" "d" "tm" "$success" = "False"
    ∧ expandVariables fxCtxEmpty fxEnvEmpty "temp" "/tmp" "ts" "d" "tm" "$error" = ""
    ∧ expandVariables fxCtxEmpty fxEnvEmpty "temp" "/tmp" "ts" "d" "tm" "$user" = ""
    ∧ expandVariables fxCtxEmpty fxEnvEmpty "temp" "/tmp" "ts" "d" "tm" "$home" = ""
    ∧ expandVariables fxCtxEmpty fxEnvEmpty "temp" "/tmp" "ts" "d" "tm" "$hostname" = ""
    ∧ expandVariables fxCtxEmpty fxEnvEmpty "temp" "/tmp" "ts" "d" "tm" "$plugin-name" = "temp"
    ∧ expandVariables fxCtxEmpty fxEnvEmpty "temp" "/tmp" "ts" "d" "tm" "$plugin-dir" = "/tmp"
    ∧ expandVariables fxCtxEmpty fxEnvEmpty "temp" "/tmp" "ts" "d" "tm" "$timestamp" = "ts"
    ∧ expandVariables fxCtxEmpty fxEnvEmpty "temp" "/tmp" "ts" "d" "tm" "$date" = "d"
    ∧ expandVariables fxCtxEmpty fxEnvEmpty "temp" "/tmp" "ts" "d" "tm" "$time" = "tm" := by
  refine ⟨fun ctx env pn pd ts d t text h => ?_, by decide, by decide, by decide,
    by decide, by decide, by decide, by decide, by decide, by decide, by decide,
    by decide, by decide, by decide, by decide, by decide⟩
  simp only [expandVariables]
  rw [pyReplace_of_not_contains text "$package-manager" _ (h _ (by decide)),
    pyReplace_of_not_contains text "$packages" _ (h _ (by decide)),
    pyReplace_of_not_contains text "$package-count" _ (h _ (by decide)),
    pyReplace_of_not_contains text "$operation" _ (h _ (by decide)),
    pyReplace_of_not_contains text "$success" _ (h _ (by decide)),
    pyReplace_of_not_contains text "$error" _ (h _ (by decide)),
    pyReplace_of_not_contains text "$user" _ (h _ (by decide)),
    pyReplace_of_not_contains text "$home" _ (h _ (by decide)),
    pyReplace_of_not_contains text "$hostname" _ (h _ (by decide)),
    pyReplace_of_not_contains text "$plugin-name" _ (h _ (by decide)),
    pyReplace_of_not_contains text "$plugin-dir" _ (h _ (by decide)),
    pyReplace_of_not_contains text "$timestamp" _ (h _ (by decide)),
    pyReplace_of_not_contains text "$date" _ (h _ (by decide)),
    pyReplace_of_not_contains text "$time" _ (h _ (by decide))]

/-- C6 witness: `$unknown` contains no builtin token, so for the empty
context and environment it expands to itself. -/
theorem c6_witness_unknown_left_verbatim :
    (∀ pat ∈ builtinTokens, charsContains pat.data "$unknown".data = false)
    ∧ expandVariables fxCtxEmpty fxEnvEmpty "temp" "/tmp" "ts" "d" "tm" "$unknown" =
        "$unknown" :=
  ⟨by decide,
    c6_amended_only_builtin_tokens_rewritten.1 fxCtxEmpty fxEnvEmpty "temp" "/tmp"
      "ts" "d" "tm" "$unknown" (by decide)⟩

/-- The action loop of `handle_event` returns the AND of the action
outcomes, and executes exactly the actions up to and including the
first failing one. -/
theorem handleEventLoop_spec (exec : String → Bool) :
    ∀ acts : List String,
      handleEventLoop exec acts =
        (acts.all exec, acts.takeWhile exec ++ (acts.dropWhile exec).take 1) := by
  intro acts
  induction acts with
  | nil => rfl
  | cons a rest ih =>
    cases h : exec a <;>
      simp [handleEventLoop, h, ih, List.all_cons, List.takeWhile_cons, List.dropWhile_cons]

/-- C5: control flow of `SimplePlugin.handle_event`. A disabled plugin
returns `true` immediately with no action executed; an event with no
configured actions contributes `true` with no action executed; on an
enabled plugin with configured actions, the handler returns `true` iff
every action succeeds, and the executed trace is the successful prefix
plus the first failing action — execution stops there. -/
theorem c5_handle_event_stops_at_first_failure :
    ∀ (p : SimplePlugin) (exec : String → Bool) (event : String),
      (p.isEnabledB = false → handleEvent p exec event = (true, []))
      ∧ (p.events.lookup event = none → handleEvent p exec event = (true, []))
      ∧ (∀ acts, p.events.lookup event = some acts →
          handleEvent p exec event =
            if p.isEnabledB then
              (acts.all exec, acts.takeWhile exec ++ (acts.dropWhile exec).take 1)
            else (true, [])) := by
  intro p exec event
  refine ⟨fun hd => ?_, fun hn => ?_, fun acts ha => ?_⟩
  · simp [handleEvent, hd]
  · cases he : p.isEnabledB <;> simp [handleEvent, he, hn]
  · cases he : p.isEnabledB <;> simp [handleEvent, he, ha, handleEventLoop_spec]

/-- C5 witness: the enabled plugin `fxPluginAbc` binds event `e` to
actions `a`, `b`, `c`; under the oracle that only `a` succeeds, the
handler returns `false` having executed exactly `a` then the failing
`b`, never `c`. -/
theorem c5_witness_stops_after_failing_b :
    fxPluginAbc.events.lookup "e" = some ["a", "b", "c"]
    ∧ handleEvent fxPluginAbc fxExecOnlyA "e" = (false, ["a", "b"]) :=
  ⟨rfl,
    ((c5_handle_event_stops_at_first_failure fxPluginAbc fxExecOnlyA "e").2.2
      ["a", "b", "c"] rfl).trans (by decide)⟩

/-- The dispatch loop of `trigger_event` visits every listed plugin:
the result is the AND of all the handler results, and the trace pairs
every plugin with its handler's executed actions, regardless of any
`false` among the results. -/
theorem triggerEventLoop_spec (exec : String → String → Bool) (event : String) :
    ∀ l : List (String × SimplePlugin),
      triggerEventLoop exec event l =
        (l.all (fun np => (handleEvent np.2 (exec np.1) event).1),
         l.map (fun np => (np.1, (handleEvent np.2 (exec np.1) event).2))) := by
  intro l
  induction l with
  | nil => rfl
  | cons hd tl ih => simp [triggerEventLoop, ih, List.all_cons]

/-- C4: `PluginManager.trigger_event` invokes the handler of every
enabled plugin — the executed-action trace covers each enabled plugin
in order, unaffected by earlier `false` results (no short-circuit) —
and returns `true` iff every invoked handler returned `true`: the
logical AND over all enabled plugins. -/
theorem c4_trigger_event_is_total_and :
    ∀ (pm : PluginManager) (exec : String → String → Bool) (event : String),
      (triggerEvent pm exec event).1 =
        (getEnabledPlugins pm).all (fun np => (handleEvent np.2 (exec np.1) event).1)
      ∧ (triggerEvent pm exec event).2 =
        (getEnabledPlugins pm).map (fun np => (np.1, (handleEvent np.2 (exec np.1) event).2)) := by
  intro pm exec event
  rw [triggerEvent, triggerEventLoop_spec]
  exact ⟨rfl, rfl⟩

/-- C2: if the backend `remove`/`purge` call that `perform_rollback`
issues fails — a result with `success = False`, or a raised exception —
then the manager state (both scope ledgers: installations, rollbacks
and metadata) is returned exactly as it was, the result carries
`success = False` and the attempted de-duplicated package list, and the
error field carries the backend's error string (verbatim for a raised
exception or any non-empty backend error string; the source substitutes
`Unknown error during removal` only when the backend supplied no
message). -/
theorem c2_rollback_backend_failure_leaves_ledger
    (registry : Registry) (st : HistoryState) (now : String) (id : Nat)
    (scope : String) (purge : Bool) (rec : InstallationRecord) (be : ManagerBackend)
    (hrec : getInstallation st id scope = some rec)
    (hbe : registry rec.manager = some be)
    (hfail : ((if purge then
          be.purgeFn (dedupPreserve (rec.packages ++ rec.dependencies))
        else
          be.removeFn (dedupPreserve (rec.packages ++ rec.dependencies)))).isFailureB = true) :
    (performRollback registry st now id scope purge).1 = st
    ∧ (performRollback registry st now id scope purge).2.success = false
    ∧ (performRollback registry st now id scope purge).2.packages_attempted =
        some (dedupPreserve (rec.packages ++ rec.dependencies))
    ∧ (∀ e, (if purge then
          be.purgeFn (dedupPreserve (rec.packages ++ rec.dependencies))
        else
          be.removeFn (dedupPreserve (rec.packages ++ rec.dependencies)))
          = .ok false (some e) → e ≠ "" →
        (performRollback registry st now id scope purge).2.error = some e)
    ∧ (∀ msg, (if purge then
          be.purgeFn (dedupPreserve (rec.packages ++ rec.dependencies))
        else
          be.removeFn (dedupPreserve (rec.packages ++ rec.dependencies)))
          = .exn msg →
        (performRollback registry st now id scope purge).2.error = some msg) := by
  simp only [performRollback, hrec, hbe]
  cases hout : (if purge then
      be.purgeFn (dedupPreserve (rec.packages ++ rec.dependencies))
    else
      be.removeFn (dedupPreserve (rec.packages ++ rec.dependencies))) with
  | ok s e =>
    cases s with
    | true => rw [hout] at hfail; simp [BackendOutcome.isFailureB] at hfail
    | false =>
      refine ⟨rfl, rfl, rfl, fun e1 he1 hne => ?_,
        fun msg hmsg => BackendOutcome.noConfusion hmsg⟩
      cases he1
      simp [pyOrError, hne]
  | exn msg =>
    refine ⟨rfl, rfl, rfl, fun e1 he1 hne => BackendOutcome.noConfusion he1,
      fun m hm => ?_⟩
    cases hm
    rfl

/-- C2 witness: scenario 4 of the specification — rolling back the
single record `{apt, [vim], deps [vim-common]}` against a backend whose
`remove` fails with `permission denied` leaves the state untouched and
reports the failure with the attempted list. -/
theorem c2_witness_permission_denied :
    (performRollback fxRegFail fxStateVim "t1" 0 "user" false).1 = fxStateVim
    ∧ (performRollback fxRegFail fxStateVim "t1" 0 "user" false).2.success = false
    ∧ (performRollback fxRegFail fxStateVim "t1" 0 "user" false).2.packages_attempted =
        some ["vim", "vim-common"]
    ∧ (performRollback fxRegFail fxStateVim "t1" 0 "user" false).2.error =
        some "permission denied" := by
  have h := c2_rollback_backend_failure_leaves_ledger fxRegFail fxStateVim "t1" 0 "user"
    false (mkRecord "apt" ["vim"] ["vim-common"]) fxBackendFail (by decide) rfl (by decide)
  exact ⟨h.1, h.2.1, h.2.2.1.trans (by decide),
    h.2.2.2.1 "permission denied" (by decide) (by decide)⟩

/-- C7 (amended): the privilege gate exists only on the read paths —
with the privilege flag false, system-scope `get_installations` returns
`[]` and `get_installation` returns nothing. The mutation paths perform
no privilege check at all: a system-scope `record_install` appends its
record to the in-memory system ledger and a system-scope
`mark_packages_removed` rewrites the system records whatever the flag,
surfacing no authorization error (the methods return nothing); the
write is not downgraded either — the user ledger is untouched. -/
theorem c7_amended_reads_gated_writes_unchecked :
    (∀ (st : HistoryState) (limit : Option Nat) (manager : Option String),
      st.privileged = false → getInstallations st limit manager "system" = [])
    ∧ (∀ (st : HistoryState) (id : Nat),
      st.privileged = false → getInstallation st id "system" = none)
    ∧ (∀ (st : HistoryState) (now user manager : String) (packages : List String)
        (details : InstallDetails),
      (recordInstall st now user manager packages details "system").systemLedger.installations.length
        = st.systemLedger.installations.length + 1
      ∧ (recordInstall st now user manager packages details "system").userLedger = st.userLedger)
    ∧ (∀ (st : HistoryState) (now manager : String) (packages : List String),
      (markPackagesRemoved st now manager packages "system").systemLedger.installations
        = st.systemLedger.installations.map (markRecord now manager packages)
      ∧ (markPackagesRemoved st now manager packages "system").userLedger = st.userLedger) := by
  refine ⟨fun st limit manager h => ?_, fun st id h => ?_,
    fun st now user manager packages details => ⟨?_, ?_⟩,
    fun st now manager packages => ⟨?_, ?_⟩⟩
  · simp [getInstallations, h]
  · simp [getInstallation, h]
  · simp [recordInstall, setScopeLedger, scopeLedger]
  · simp [recordInstall, setScopeLedger, scopeLedger]
  · simp [markPackagesRemoved, setScopeLedger, scopeLedger]
  · simp [markPackagesRemoved, setScopeLedger, scopeLedger]

/-- C7 witness: at the unprivileged empty state, reads of system scope
are empty while a system-scope `record_install` still lands in the
system ledger and leaves the user ledger alone. -/
theorem c7_witness_unprivileged_state :
    fxStateUnpriv.privileged = false
    ∧ getInstallations fxStateUnpriv none none "system" = []
    ∧ getInstallation fxStateUnpriv 0 "system" = none
    ∧ (recordInstall fxStateUnpriv "t1" "alice" "apt" ["htop"] ⟨none, none, none⟩
        "system").systemLedger.installations.length
        = fxStateUnpriv.systemLedger.installations.length + 1
    ∧ (recordInstall fxStateUnpriv "t1" "alice" "apt" ["htop"] ⟨none, none, none⟩
        "system").userLedger = fxStateUnpriv.userLedger :=
  ⟨rfl,
    c7_amended_reads_gated_writes_unchecked.1 fxStateUnpriv none none rfl,
    c7_amended_reads_gated_writes_unchecked.2.1 fxStateUnpriv 0 rfl,
    (c7_amended_reads_gated_writes_unchecked.2.2.1 fxStateUnpriv "t1" "alice" "apt"
      ["htop"] ⟨none, none, none⟩).1,
    (c7_amended_reads_gated_writes_unchecked.2.2.1 fxStateUnpriv "t1" "alice" "apt"
      ["htop"] ⟨none, none, none⟩).2⟩

/-- A predicate preserved by every step of a left fold holds of the
fold's result. -/
theorem foldl_invariant {α β : Type _} (P : β → Prop) (f : β → α → β)
    (hf : ∀ b a, P b → P (f b a)) : ∀ (l : List α) (b : β), P b → P (l.foldl f b) := by
  intro l
  induction l with
  | nil => exact fun b hb => hb
  | cons x xs ih => exact fun b hb => ih _ (hf b x hb)

/-- `mark_packages_removed` only rewrites records in place: both
ledgers keep their installation counts. -/
theorem markPackagesRemoved_lengths (st : HistoryState) (now manager : String)
    (packages : List String) (scope : String) :
    (markPackagesRemoved st now manager packages scope).userLedger.installations.length
      = st.userLedger.installations.length
    ∧ (markPackagesRemoved st now manager packages scope).systemLedger.installations.length
      = st.systemLedger.installations.length := by
  cases h : scope == "system" <;>
    simp [markPackagesRemoved, setScopeLedger, scopeLedger, h]

/-- One package step of reconciliation preserves both installation
counts (it is either the identity or a `mark_packages_removed`). -/
theorem reconcilePackageStep_lengths (registry : Registry) (now scope manager : String)
    (acc : HistoryState × ReconcileResults) (package : String) :
    ((reconcilePackageStep registry now scope manager acc package).1.userLedger.installations.length
      = acc.1.userLedger.installations.length)
    ∧ ((reconcilePackageStep registry now scope manager acc package).1.systemLedger.installations.length
      = acc.1.systemLedger.installations.length) := by
  simp only [reconcilePackageStep]
  split
  · exact markPackagesRemoved_lengths acc.1 now manager [package] scope
  · exact ⟨rfl, rfl⟩

/-- One record step of reconciliation preserves both installation
counts. -/
theorem reconcileRecordStep_lengths (registry : Registry) (now scope : String)
    (acc : HistoryState × ReconcileResults) (i : Nat) :
    ((reconcileRecordStep registry now scope acc i).1.userLedger.installations.length
      = acc.1.userLedger.installations.length)
    ∧ ((reconcileRecordStep registry now scope acc i).1.systemLedger.installations.length
      = acc.1.systemLedger.installations.length) := by
  unfold reconcileRecordStep
  split
  · exact ⟨rfl, rfl⟩
  · split
    · exact ⟨rfl, rfl⟩
    · exact foldl_invariant
        (fun b => b.1.userLedger.installations.length = acc.1.userLedger.installations.length
          ∧ b.1.systemLedger.installations.length = acc.1.systemLedger.installations.length)
        (reconcilePackageStep registry now scope _)
        (fun b p hb =>
          ⟨(reconcilePackageStep_lengths registry now scope _ b p).1.trans hb.1,
           (reconcilePackageStep_lengths registry now scope _ b p).2.trans hb.2⟩)
        _ acc ⟨rfl, rfl⟩

/-- A whole reconciliation run preserves both installation counts. -/
theorem reconcilePackageStatus_lengths (registry : Registry) (st : HistoryState)
    (now scope : String) :
    ((reconcilePackageStatus registry st now scope).1.userLedger.installations.length
      = st.userLedger.installations.length)
    ∧ ((reconcilePackageStatus registry st now scope).1.systemLedger.installations.length
      = st.systemLedger.installations.length) := by
  unfold reconcilePackageStatus
  exact foldl_invariant
    (fun b => b.1.userLedger.installations.length = st.userLedger.installations.length
      ∧ b.1.systemLedger.installations.length = st.systemLedger.installations.length)
    (reconcileRecordStep registry now scope)
    (fun b i hb =>
      ⟨(reconcileRecordStep_lengths registry now scope b i).1.trans hb.1,
       (reconcileRecordStep_lengths registry now scope b i).2.trans hb.2⟩)
    _ (st, emptyReconcileResults) ⟨rfl, rfl⟩

/-- `record_install` grows exactly the ledger its (normalised) scope
selects, by exactly one record. -/
theorem recordInstall_lengths (st : HistoryState) (now user manager : String)
    (packages : List String) (details : InstallDetails) (scope : String) :
    ((recordInstall st now user manager packages details scope).systemLedger.installations.length
      = st.systemLedger.installations.length + (if scope == "system" then 1 else 0))
    ∧ ((recordInstall st now user manager packages details scope).userLedger.installations.length
      = st.userLedger.installations.length + (if scope == "system" then 0 else 1)) := by
  cases h : scope == "system" <;>
    simp [recordInstall, setScopeLedger, scopeLedger, h]

/-- Running a call sequence from any state adds to each ledger exactly
as many installation records as the sequence holds `record_install`
calls routed to that ledger. -/
theorem applyOps_installation_counts :
    ∀ (ops : List HistoryOp) (st : HistoryState),
      ((ops.foldl applyOp st).systemLedger.installations.length
        = st.systemLedger.installations.length + (ops.filter isSystemInstall).length)
      ∧ ((ops.foldl applyOp st).userLedger.installations.length
        = st.userLedger.installations.length + (ops.filter isUserInstall).length) := by
  intro ops
  induction ops with
  | nil => exact fun st => ⟨rfl, rfl⟩
  | cons op rest ih =>
    intro st
    have hrest := ih (applyOp st op)
    cases op with
    | install now user manager packages details scope =>
      have hlen := recordInstall_lengths st now user manager packages details scope
      cases h : scope == "system" <;>
        · simp [applyOp, isSystemInstall, isUserInstall, h, bne, List.filter_cons] at hrest hlen ⊢
          constructor <;> omega
    | mark now manager packages scope =>
      have hlen := markPackagesRemoved_lengths st now manager packages scope
      simp [applyOp, isSystemInstall, isUserInstall, List.filter_cons] at hrest ⊢
      constructor <;> omega
    | reconcile registry now scope =>
      have hlen := reconcilePackageStatus_lengths registry st now scope
      simp [applyOp, isSystemInstall, isUserInstall, List.filter_cons] at hrest ⊢
      constructor <;> omega

/-- C9: `mark_packages_removed` never deletes an installation record
(both ledgers keep their counts), and after any sequence of
`record_install`, `mark_packages_removed` and
`reconcile_package_status` calls on a fresh manager (empty ledgers),
each ledger holds exactly as many installation records as
`record_install` calls were routed to it (`record_install` sends scope
`system` to the system ledger and every other scope to the user
ledger). -/
theorem c9_record_count_equals_install_calls :
    (∀ (st : HistoryState) (now manager : String) (packages : List String) (scope : String),
      (markPackagesRemoved st now manager packages scope).userLedger.installations.length
        = st.userLedger.installations.length
      ∧ (markPackagesRemoved st now manager packages scope).systemLedger.installations.length
        = st.systemLedger.installations.length)
    ∧ (∀ (ops : List HistoryOp) (now : String) (priv : Bool),
      ((ops.foldl applyOp (initState now priv)).systemLedger.installations.length
        = (ops.filter isSystemInstall).length)
      ∧ ((ops.foldl applyOp (initState now priv)).userLedger.installations.length
        = (ops.filter isUserInstall).length)) := by
  refine ⟨markPackagesRemoved_lengths, fun ops now priv => ?_⟩
  have h := applyOps_installation_counts ops (initState now priv)
  simpa [initState, initLedger] using h

/-- The package loop of `mark_packages_removed` leaves a record's
`removed` flag true exactly when it was already true or some listed
package occurs in the record's package list. -/
theorem markRecordLoop_removed (now : String) :
    ∀ (pkgs : List String) (r : InstallationRecord),
      (pkgs.foldl (markRecordStep now) r).removed
        = (r.removed || pkgs.any (fun p => r.packages.contains p)) := by
  intro pkgs
  induction pkgs with
  | nil => intro r; simp
  | cons p ps ih =>
    intro r
    cases h : r.packages.contains p with
    | false =>
      have hm : p ∉ r.packages := by simpa using h
      simp [markRecordStep, hm, ih r]
    | true =>
      have hm : p ∈ r.packages := by simpa using h
      have hr := ih { r with removed := true, removed_timestamp := some now
                             removed_packages := r.removed_packages ++ [p] }
      simp [markRecordStep, hm, hr]

/-- C10 (amended): `mark_packages_removed` sets the record-level
`removed` flag of every same-manager record containing any listed
package, even when the record's other packages remain installed; and
reconciliation checks no package of a record whose `removed` flag is
set — a ledger in which every record is flagged is returned completely
unchanged with zero packages checked and no detail produced, whatever
the backend registry. (The still-installed packages of a
partially-removed record are thus never themselves queried; they are
not immune from bookkeeping, though: as the counterexample shows,
marking a shared package name while reconciling another live record of
the same manager also appends to the flagged record's
`removed_packages`.) -/
theorem c10_amended_removed_records_skipped :
    (∀ (now manager : String) (packages : List String) (rec : InstallationRecord),
      rec.manager = manager →
      (∃ p ∈ packages, rec.packages.contains p = true) →
      (markRecord now manager packages rec).removed = true)
    ∧ (∀ (registry : Registry) (st : HistoryState) (now scope : String),
      (∀ rec ∈ (scopeLedger st scope).installations, rec.removed = true) →
      reconcilePackageStatus registry st now scope = (st, emptyReconcileResults)) := by
  constructor
  · rintro now manager pkgs rec hm ⟨p, hp, hc⟩
    subst hm
    simp [markRecord, markRecordLoop_removed]
    exact Or.inr ⟨p, hp, by simpa using hc⟩
  · intro registry st now scope h
    unfold reconcilePackageStatus
    refine foldl_invariant (fun b => b = (st, emptyReconcileResults))
      (reconcileRecordStep registry now scope) ?_ _ _ rfl
    intro b i hb
    subst hb
    simp only [reconcileRecordStep]
    split
    · rfl
    · next rec hget =>
      rw [h rec (List.get?_mem hget)]
      rfl

/-- C10 witness: marking package `b` of the two-package record
`{m, [a, b]}` flags the whole record; and reconciling the state whose
only record is already flagged changes nothing and checks nothing. -/
theorem c10_witness_mark_and_skip :
    (markRecord "t1" "m" ["b"] (mkRecord "m" ["a", "b"] [])).removed = true
    ∧ reconcilePackageStatus fxRegOk fxStateAllRemoved "t1" "user"
        = (fxStateAllRemoved, emptyReconcileResults) :=
  ⟨c10_amended_removed_records_skipped.1 "t1" "m" ["b"] (mkRecord "m" ["a", "b"] [])
      rfl ⟨"b", by decide, by decide⟩,
    c10_amended_removed_records_skipped.2 fxRegOk fxStateAllRemoved "t1" "user"
      (by decide)⟩

end Paka
